import Mathlib

/-!
Verification of the vulkanus renderer core: a shallow embedding of the frame
compositor of src/main.rs (per-pixel diff, glyph selection, smoothed frame
duration, FPS overlay) and of the data path of render::Pipeline in
src/render/mod.rs (construction-time buffer uploads and the per-frame uniform
transform), with theorems settling the specification's claims about them.

Machine floats are embedded as exact rationals; the transcendental primitives
the transform uses (sin, cos, sqrt, the value of pi) are abstract parameters;
the IEEE special values the overlay division can reach are modelled explicitly.
The GPU rasterization itself (the GLSL shader stages and multisample resolve)
is not part of the embedded sources and appears as a function parameter.
-/

namespace Vulkanus

/-- An RGBA pixel, one byte per channel, as in image::Rgba of u8. -/
structure Rgba where
  r : Nat
  g : Nat
  b : Nat
  a : Nat
  deriving DecidableEq, Repr

/-- Byte at index i of a raw byte buffer (reads past the end default to 0; in
the program all reads are in range). -/
def byteAt (bytes : List Nat) (i : Nat) : Nat := bytes.getD i 0

/-- Pixel (x, y) of a width-w row-major RGBA byte buffer, as read by
ImageBuffer::from_raw(width, height, bytes).get_pixel(x, y). -/
def getPixel (w : Nat) (bytes : List Nat) (x y : Nat) : Rgba :=
  ⟨byteAt bytes (4 * (y * w + x)), byteAt bytes (4 * (y * w + x) + 1),
   byteAt bytes (4 * (y * w + x) + 2), byteAt bytes (4 * (y * w + x) + 3)⟩

/-- get_ascii of src/main.rs: alpha 0 gives a space, anything else the fixed
visible glyph. -/
def get_ascii (pixel : Rgba) : Char :=
  if pixel.a = 0 then ' ' else '0'

/-- The single-precision values reachable in the overlay computation: finite
numbers (held exactly), the signed infinities, NaN. -/
inductive F32 where
  | finite (q : ℚ)
  | posInf
  | negInf
  | nan
  deriving DecidableEq, Repr

/-- IEEE-754 division on this value model (rounding of finite results is not
modelled; a zero denominator is the +0 the program produces). -/
def F32.div : F32 → F32 → F32
  | F32.finite a, F32.finite b =>
      if b = 0 then
        if a = 0 then F32.nan
        else if 0 < a then F32.posInf else F32.negInf
      else F32.finite (a / b)
  | F32.finite _, F32.posInf => F32.finite 0
  | F32.finite _, F32.negInf => F32.finite 0
  | F32.posInf, F32.finite b => if 0 ≤ b then F32.posInf else F32.negInf
  | F32.negInf, F32.finite b => if 0 ≤ b then F32.negInf else F32.posInf
  | _, _ => F32.nan

/-- The value the overlay prints: 1.0 / (frame_average / 1000.0). -/
def displayFps (avg : F32) : F32 :=
  F32.div (F32.finite 1) (F32.div avg (F32.finite 1000))

/-- std::time::Duration: whole seconds and the sub-second nanoseconds. -/
structure Duration where
  secs : Nat
  nanos : Nat
  deriving DecidableEq, Repr

/-- Duration::as_millis(): the total number of whole milliseconds, truncating
the sub-millisecond remainder. -/
def Duration.asMillis (d : Duration) : Nat :=
  d.secs * 1000 + d.nanos / 1000000

/-- elapsed.as_secs() as f64 + elapsed.subsec_nanos() as f64 / 1e9: the elapsed
time in seconds fed to the rotation. -/
def Duration.toSecs (d : Duration) : ℚ :=
  (d.secs : ℚ) + (d.nanos : ℚ) / 1000000000

/-- frame_average = frame_average * 0.95 + sample * 0.05, the smoothing update
of the driver loop, idealized over the exact rationals. -/
def frameAvgStep (avg sample : ℚ) : ℚ :=
  avg * 0.95 + sample * 0.05

/-- What a terminal cell update prints: a glyph for a diff cell, a numeric
value for the FPS overlay. -/
inductive CellContent where
  | glyph (c : Char)
  | number (v : F32)
  deriving DecidableEq, Repr

/-- Whether a cell update is a glyph (diff) write rather than the overlay. -/
def isGlyph : CellContent → Bool
  | CellContent.glyph _ => true
  | CellContent.number _ => false

/-- One queued terminal cell update: MoveTo(x, y), SetForegroundColor(r, g, b),
Print(content). -/
structure Update where
  x : Nat
  y : Nat
  r : Nat
  g : Nat
  b : Nat
  content : CellContent
  deriving DecidableEq, Repr

/-- The pixel coordinates, in enumerate_pixels raster order (x fastest), at
which the current and previous buffers differ bytewise. -/
def diffCells (w h : Nat) (cur prev : List Nat) : List (Nat × Nat) :=
  (List.range h).flatMap fun y =>
    ((List.range w).filter fun x =>
      decide (getPixel w cur x y ≠ getPixel w prev x y)).map fun x => (x, y)

/-- The number of pixel coordinates at which the two buffers differ, counted
over the full raster. -/
def changedCount (w h : Nat) (cur prev : List Nat) : Nat :=
  ((List.range h).flatMap fun y => (List.range w).map fun x => (x, y)).countP
    fun p => decide (getPixel w cur p.1 p.2 ≠ getPixel w prev p.1 p.2)

/-- The cell update the diff pass queues for a changed coordinate p: move to
p, set the foreground to the pixel RGB, print get_ascii of the pixel. -/
def diffUpdate (w : Nat) (cur : List Nat) (p : Nat × Nat) : Update :=
  Update.mk p.1 p.2 (getPixel w cur p.1 p.2).r (getPixel w cur p.1 p.2).g
    (getPixel w cur p.1 p.2).b
    (CellContent.glyph (get_ascii (getPixel w cur p.1 p.2)))

/-- One driver-loop iteration after the GPU readback (src/main.rs lines 73-85):
the per-pixel diff writes in raster order, then the frame-average update, then
the FPS overlay write at (0, 0). Returns the emitted updates in order together
with the new frame average. -/
def presentFrame (w h : Nat) (cur prev : List Nat) (avg : ℚ) (dur : Duration) :
    List Update × ℚ :=
  let diffs := (diffCells w h cur prev).map (diffUpdate w cur)
  let avg2 := frameAvgStep avg (dur.asMillis : ℚ)
  (diffs ++ [Update.mk 0 0 255 0 0 (CellContent.number (displayFps (F32.finite avg2)))],
   avg2)

/-- blank_image of src/main.rs line 48: width * height * 4 zero bytes. -/
def blankImage (width height : Nat) : List Nat :=
  List.replicate (width * height * 4) 0

/-- The real-valued primitives of the transform computation (f32 sine, cosine,
square root, and the f32 value of pi), abstracted as parameters of the
exact-rational embedding. -/
structure TrigOps where
  sinq : ℚ → ℚ
  cosq : ℚ → ℚ
  sqrtq : ℚ → ℚ
  piq : ℚ

/-- A homogeneous 4 by 4 matrix of f32 entries. -/
abbrev M4 := Matrix (Fin 4) (Fin 4) ℚ

/-- A 3-component f32 vector. -/
abbrev V3 := ℚ × ℚ × ℚ

/-- Componentwise vector difference. -/
def vsub (a b : V3) : V3 :=
  (a.1 - b.1, a.2.1 - b.2.1, a.2.2 - b.2.2)

/-- Dot product. -/
def vdot (a b : V3) : ℚ :=
  a.1 * b.1 + a.2.1 * b.2.1 + a.2.2 * b.2.2

/-- Cross product. -/
def vcross (a b : V3) : V3 :=
  (a.2.1 * b.2.2 - a.2.2 * b.2.1,
   a.2.2 * b.1 - a.1 * b.2.2,
   a.1 * b.2.1 - a.2.1 * b.1)

/-- InnerSpace::normalize: the vector divided by its magnitude
sqrt(dot(v, v)). -/
def vnormalize (ops : TrigOps) (v : V3) : V3 :=
  let n := ops.sqrtq (vdot v v)
  (v.1 / n, v.2.1 / n, v.2.2 / n)

/-- Matrix4::from(Matrix3::from_angle_y(theta)) of cgmath: the Matrix3
constructor is column-major with columns (c, 0, -s), (0, 1, 0), (s, 0, c);
the Lean matrix is row-major, so entry (i, j) is column j, row i. -/
def matrix4FromAngleY (ops : TrigOps) (theta : ℚ) : M4 :=
  let s := ops.sinq theta
  let c := ops.cosq theta
  !![c, 0, s, 0;
     0, 1, 0, 0;
     -s, 0, c, 0;
     0, 0, 0, 1]

/-- Matrix4::from_scale(s) of cgmath. -/
def matrix4FromScale (s : ℚ) : M4 :=
  !![s, 0, 0, 0;
     0, s, 0, 0;
     0, 0, s, 0;
     0, 0, 0, 1]

/-- Matrix4::look_at(eye, center, up) of cgmath 0.17 (right-handed): with
f = normalize(center - eye), s = normalize(f x up), u = s x f, the columns are
(s.x, u.x, -f.x, 0), (s.y, u.y, -f.y, 0), (s.z, u.z, -f.z, 0),
(-dot(eye, s), -dot(eye, u), dot(eye, f), 1). -/
def lookAtMatrix (ops : TrigOps) (eye center up : V3) : M4 :=
  let f := vnormalize ops (vsub center eye)
  let s := vnormalize ops (vcross f up)
  let u := vcross s f
  !![s.1, s.2.1, s.2.2, -(vdot eye s);
     u.1, u.2.1, u.2.2, -(vdot eye u);
     -f.1, -f.2.1, -f.2.2, vdot eye f;
     0, 0, 0, 1]

/-- cgmath::perspective(Rad(fovy), aspect, near, far), the PerspectiveFov to
Matrix4 conversion, with f = cot(fovy / 2). -/
def perspectiveMatrix (ops : TrigOps) (fovy aspect near far : ℚ) : M4 :=
  let f := ops.cosq (fovy / 2) / ops.sinq (fovy / 2)
  !![f / aspect, 0, 0, 0;
     0, f, 0, 0;
     0, 0, (far + near) / (near - far), 2 * far * near / (near - far);
     0, 0, -1, 0]

/-- The uniform data of Pipeline::render (src/render/mod.rs lines 76-102):
world = Matrix4::from(Matrix3::from_angle_y(elapsed seconds)),
view = look_at((-0.5, 1, -2), origin, (0, -1, 0)) * from_scale(1),
proj = perspective(Rad(FRAC_PI_2 / 1.5), (width / 2) / height, 0.01, 100),
returned as (world, view, proj). -/
def renderUniform (ops : TrigOps) (elapsed : Duration) (width height : Nat) :
    M4 × M4 × M4 :=
  let rotation := elapsed.toSecs
  let world := matrix4FromAngleY ops rotation
  let aspect := ((width : ℚ) / 2) / (height : ℚ)
  let proj := perspectiveMatrix ops (ops.piq / 2 / 1.5) aspect 0.01 100
  let view := lookAtMatrix ops (-0.5, 1, -2) (0, 0, 0) (0, -1, 0)
  let scale := matrix4FromScale 1
  (world, view * scale, proj)

/-- A clear value of the render pass begin: the transparent-black color clear,
the depth clear, or ClearValue::None for the resolve attachment. -/
inductive ClearValue where
  | color (r g b a : ℚ)
  | depth (d : ℚ)
  | none
  deriving DecidableEq, Repr

/-- The CPU-visible state of render::Pipeline: dimensions, the clear values,
the resolve image content, opaque handles for the graphics pipeline object and
the framebuffer, the three geometry buffer contents, the host-readable output
buffer content, and the write cursor of the Renderer uniform buffer pool. -/
structure PipelineState where
  width : Nat
  height : Nat
  clearValues : List ClearValue
  imageContent : List Nat
  pipelineObj : Nat
  framebufferObj : Nat
  vertexBuffer : List ℚ
  normalBuffer : List ℚ
  indexBuffer : List Nat
  outputBuffer : List Nat
  uniformCursor : Nat
  deriving DecidableEq, Repr

/-- Pipeline::new (src/render/mod.rs lines 147-252): records the clear values,
allocates the attachments, pipeline and framebuffer, uploads the three
geometry sequences verbatim into GPU-resident buffers, and allocates the
zeroed width * height * 4 output buffer. Failures of the GPU resource
allocations are environmental and modelled as absent; the data path contains
no validation and no data-dependent failure. -/
def Pipeline.new (width height : Nat) (vertices normals : List ℚ)
    (indices : List Nat) : Except String PipelineState :=
  Except.ok
    { width := width
      height := height
      clearValues := [ClearValue.color 0 0 0 0, ClearValue.depth 1, ClearValue.none]
      imageContent := List.replicate (width * height * 4) 0
      pipelineObj := 0
      framebufferObj := 0
      vertexBuffer := vertices
      normalBuffer := normals
      indexBuffer := indices
      outputBuffer := List.replicate (width * height * 4) 0
      uniformCursor := 0 }

/-- The GPU rasterization (GLSL shader stages, depth test, multisample
resolve) as a function of everything the recorded command sequence binds:
uniforms, the vertex, normal and index buffers, the dimensions and the clear
values. The shader sources are outside the embedded code, so this is a
parameter of the model. -/
abbrev RasterFn : Type :=
  (M4 × M4 × M4) → List ℚ → List ℚ → List Nat → Nat → Nat → List ClearValue →
    List Nat

/-- Pipeline::render(elapsed) (src/render/mod.rs lines 75-145): compute the
uniform transform and push it into the next uniform pool slot (advancing the
write cursor), record clear + indexed draw + copy of the resolve image into
the output buffer, submit, wait on the fence, and read the output buffer back
as the returned pixel buffer. -/
def Pipeline.render (ops : TrigOps) (raster : RasterFn) (p : PipelineState)
    (elapsed : Duration) : PipelineState × List Nat :=
  let uniforms := renderUniform ops elapsed p.width p.height
  let frame := raster uniforms p.vertexBuffer p.normalBuffer p.indexBuffer
    p.width p.height p.clearValues
  ({ p with
      uniformCursor := p.uniformCursor + 1
      imageContent := frame
      outputBuffer := frame },
   frame)

/-- The classical homogeneous rotation about the vertical (y) axis by angle
theta, written as the specification states it (row-major), independently of
the cgmath column-major construction. -/
def specYRotation (ops : TrigOps) (theta : ℚ) : M4 :=
  !![ops.cosq theta, 0, ops.sinq theta, 0;
     0, 1, 0, 0;
     -(ops.sinq theta), 0, ops.cosq theta, 0;
     0, 0, 0, 1]

/-- The printed overlay value 1.0 / (frame_average / 1000.0) equals
1000 / frame_average at every value of the float model, the special values
included. -/
theorem displayFps_eq_thousand_div (v : F32) :
    displayFps v = F32.div (F32.finite 1000) v := by
  cases v with
  | finite q =>
      by_cases hq : q = 0
      · subst hq
        simp [displayFps, F32.div]
      · have hq1000 : q / 1000 ≠ 0 := by
          simp [div_eq_zero_iff, hq]
        simp only [displayFps, F32.div, if_neg (by norm_num : (1000 : ℚ) ≠ 0),
          if_neg hq1000, if_neg hq, F32.finite.injEq]
        rw [one_div_div]
  | posInf => simp [displayFps, F32.div]
  | negInf => simp [displayFps, F32.div]
  | nan => simp [displayFps, F32.div]

/-- The last element of a list with one element appended. -/
theorem getLast?_append_singleton {α : Type} (l : List α) (a : α) :
    (l ++ [a]).getLast? = some a := by
  induction l with
  | nil => rfl
  | cons b l ih =>
      rw [List.cons_append, List.getLast?_cons]
      simp [ih]

/-- The diff pass visits exactly as many cells as there are changed
coordinates. -/
theorem diffCells_length (w h : Nat) (cur prev : List Nat) :
    (diffCells w h cur prev).length = changedCount w h cur prev := by
  unfold diffCells changedCount
  induction List.range h with
  | nil => rfl
  | cons y ys ih =>
      simp only [List.flatMap_cons, List.length_append, List.countP_append, ih,
        List.length_map, List.countP_map, ← List.countP_eq_length_filter,
        Function.comp]
      rfl

/-- Every cell the diff pass visits is a coordinate at which the buffers
differ. -/
theorem diffCells_mem {w h : Nat} {cur prev : List Nat} {p : Nat × Nat}
    (hp : p ∈ diffCells w h cur prev) :
    getPixel w cur p.1 p.2 ≠ getPixel w prev p.1 p.2 := by
  unfold diffCells at hp
  simp only [List.mem_flatMap, List.mem_map, List.mem_filter, List.mem_range] at hp
  obtain ⟨y, -, x, ⟨-, hdiff⟩, rfl⟩ := hp
  exact of_decide_eq_true hdiff

/-- A present emits one update per changed coordinate plus the overlay. -/
theorem presentFrame_length (w h : Nat) (cur prev : List Nat) (avg : ℚ)
    (dur : Duration) :
    (presentFrame w h cur prev avg dur).1.length = changedCount w h cur prev + 1 := by
  unfold presentFrame
  simp [diffCells_length]

/-- C3: the smoothed frame duration follows the recurrence
avg2 = avg * 0.95 + sample * 0.05 — present returns exactly this value — so
starting from 0 one frame of duration D yields 0.05 * D and two frames of
durations D1 then D2 yield 0.95 * 0.05 * D1 + 0.05 * D2. -/
theorem frame_average_recurrence :
    (∀ (w h : Nat) (cur prev : List Nat) (avg : ℚ) (dur : Duration),
      (presentFrame w h cur prev avg dur).2
        = avg * 0.95 + (dur.asMillis : ℚ) * 0.05) ∧
    (∀ D : ℚ, frameAvgStep 0 D = 0.05 * D) ∧
    (∀ D1 D2 : ℚ, frameAvgStep (frameAvgStep 0 D1) D2
        = 0.95 * 0.05 * D1 + 0.05 * D2) := by
  refine ⟨fun w h cur prev avg dur => rfl, fun D => ?_, fun D1 D2 => ?_⟩
  · unfold frameAvgStep; ring
  · unfold frameAvgStep; ring

/-- C4 counterexample: the mesh with a single vertex (position and normal
(0, 0, 0)) and index list [5] is accepted by Pipeline::new — which uploads the
index 5 verbatim — although 5 is not less than the vertex count 1: nothing
rejects an out-of-bounds index before upload. -/
theorem index_bounds_counterexample :
    Pipeline.new 2 2 [0, 0, 0] [0, 0, 0] [5]
      = Except.ok
          { width := 2
            height := 2
            clearValues := [ClearValue.color 0 0 0 0, ClearValue.depth 1,
              ClearValue.none]
            imageContent := List.replicate 16 0
            pipelineObj := 0
            framebufferObj := 0
            vertexBuffer := [0, 0, 0]
            normalBuffer := [0, 0, 0]
            indexBuffer := [5]
            outputBuffer := List.replicate 16 0
            uniformCursor := 0 } ∧
    ¬(5 < [(0 : ℚ), 0, 0].length / 3) := by
  constructor
  · rfl
  · decide

/-- C4 amended: Pipeline::new performs no index validation — for every mesh
the construction's data path succeeds and the index sequence is uploaded
verbatim into the index buffer, whatever the vertex count. -/
theorem index_upload_verbatim (width height : Nat) (vertices normals : List ℚ)
    (indices : List Nat) :
    (Pipeline.new width height vertices normals indices).toOption.map
      PipelineState.indexBuffer = some indices := rfl

/-- C7: every present ends with exactly one overlay update, at coordinate
(0, 0), in the fixed highlight color (255, 0, 0), carrying 1000 divided by the
new smoothed frame duration in milliseconds (the code computes
1.0 / (frame_average / 1000.0), equal to 1000 / frame_average in the float
value model), whatever the buffers — changed or not at (0, 0). -/
theorem overlay_every_frame (w h : Nat) (cur prev : List Nat) (avg : ℚ)
    (dur : Duration) :
    (presentFrame w h cur prev avg dur).1.getLast? =
      some (Update.mk 0 0 255 0 0 (CellContent.number
        (F32.div (F32.finite 1000)
          (F32.finite ((presentFrame w h cur prev avg dur).2))))) := by
  unfold presentFrame
  rw [getLast?_append_singleton, ← displayFps_eq_thousand_div]

/-- C1: each present emits exactly (number of coordinates at which the current
and previous buffers differ bytewise) + 1 updates, the one extra being the
overlay; at every coordinate where the buffers are identical no glyph update
is emitted, so a full-frame rewrite never occurs. -/
theorem present_update_count (w h : Nat) (cur prev : List Nat) (avg : ℚ)
    (dur : Duration) :
    (presentFrame w h cur prev avg dur).1.length
      = changedCount w h cur prev + 1 ∧
    ∀ x y : Nat, getPixel w cur x y = getPixel w prev x y →
      ((presentFrame w h cur prev avg dur).1.filter fun u =>
        decide (u.x = x) && decide (u.y = y) && isGlyph u.content).length = 0 := by
  refine ⟨presentFrame_length w h cur prev avg dur, fun x y hxy => ?_⟩
  rw [List.length_eq_zero, List.filter_eq_nil_iff]
  intro u hu
  unfold presentFrame at hu
  simp only [List.mem_append, List.mem_map, List.mem_singleton] at hu
  rcases hu with ⟨p, hp, rfl⟩ | rfl
  · intro hpred
    simp only [diffUpdate, Bool.and_eq_true, decide_eq_true_eq] at hpred
    obtain ⟨⟨hx, hy⟩, -⟩ := hpred
    exact diffCells_mem hp (hx ▸ hy ▸ hxy)
  · simp [isGlyph]

/-- C1 witness: with a 1 by 1 buffer equal to its predecessor, the update at
the unchanged coordinate (0, 0) is never a glyph write. -/
theorem present_update_count_witness :
    ((presentFrame 1 1 (blankImage 1 1) (blankImage 1 1) 0
        (Duration.mk 0 0)).1.filter fun u =>
      decide (u.x = 0) && decide (u.y = 0) && isGlyph u.content).length = 0 :=
  (present_update_count 1 1 (blankImage 1 1) (blankImage 1 1) 0
    (Duration.mk 0 0)).2 0 0 rfl

/-- C2: get_ascii maps a fully transparent pixel to the space character
whatever the RGB channels, and any pixel of non-zero alpha to the fixed
visible glyph; and every glyph update a present emits carries exactly the RGB
channels of its pixel as its foreground color and get_ascii of that pixel as
its glyph. -/
theorem glyph_and_color_exact :
    (∀ px : Rgba, (px.a = 0 → get_ascii px = ' ') ∧
      (px.a ≠ 0 → get_ascii px = '0')) ∧
    ∀ (w h : Nat) (cur prev : List Nat) (avg : ℚ) (dur : Duration)
      (u : Update), u ∈ (presentFrame w h cur prev avg dur).1 →
      isGlyph u.content = true →
      u.content = CellContent.glyph (get_ascii (getPixel w cur u.x u.y)) ∧
      u.r = (getPixel w cur u.x u.y).r ∧
      u.g = (getPixel w cur u.x u.y).g ∧
      u.b = (getPixel w cur u.x u.y).b := by
  constructor
  · intro px
    constructor <;> intro ha <;> simp [get_ascii, ha]
  · intro w h cur prev avg dur u hu hg
    unfold presentFrame at hu
    simp only [List.mem_append, List.mem_map, List.mem_singleton] at hu
    rcases hu with ⟨p, hp, rfl⟩ | rfl
    · exact ⟨rfl, rfl, rfl, rfl⟩
    · simp [isGlyph] at hg

/-- A 1 by 1 current buffer holding the single pixel (9, 8, 7, 4). -/
def curW : List Nat := [9, 8, 7, 4]

/-- C2 witness: the transparent pixel prints as a space, and the concrete
glyph update of a changed opaque pixel carries that pixel's data. -/
theorem glyph_and_color_exact_witness :
    get_ascii (Rgba.mk 1 2 3 0) = ' ' ∧
    (diffUpdate 1 curW (0, 0)).content
      = CellContent.glyph (get_ascii (getPixel 1 curW 0 0)) :=
  ⟨(glyph_and_color_exact.1 (Rgba.mk 1 2 3 0)).1 rfl,
   (glyph_and_color_exact.2 1 1 curW (blankImage 1 1) 0 (Duration.mk 0 0)
      (diffUpdate 1 curW (0, 0)) (by decide) rfl).1⟩

/-- C5 counterexample: on the 2 by 2 terminal with every rendered pixel of the
first frame fully transparent, the first present emits exactly 1 update (the
overlay alone) and not the claimed 4 + 1: the zero-initialized previous buffer
coincides bytewise with the transparent rendered pixels, so no space update is
emitted. -/
theorem first_frame_counterexample :
    (presentFrame 2 2 (blankImage 2 2) (blankImage 2 2) 0
      (Duration.mk 0 0)).1.length = 1 ∧
    (presentFrame 2 2 (blankImage 2 2) (blankImage 2 2) 0
      (Duration.mk 0 0)).1.length ≠ 5 := by
  constructor
  · rw [presentFrame_length]
    decide
  · rw [presentFrame_length]
    decide

/-- C5 amended: on the 2 by 2 terminal with fully transparent rendered frames,
the first present emits only the overlay — the zero sentinel of the previous
buffer equals the transparent rendered pixels bytewise, so zero space updates —
and the second identical frame again emits only the overlay. -/
theorem transparent_frames_overlay_only (dur1 dur2 : Duration) :
    (presentFrame 2 2 (blankImage 2 2) (blankImage 2 2) 0 dur1).1.length = 1 ∧
    (presentFrame 2 2 (blankImage 2 2) (blankImage 2 2)
      (presentFrame 2 2 (blankImage 2 2) (blankImage 2 2) 0 dur1).2
      dur2).1.length = 1 := by
  have hc : changedCount 2 2 (blankImage 2 2) (blankImage 2 2) = 0 := by decide
  constructor <;> rw [presentFrame_length, hc]

/-- C10: a frame of duration under one millisecond truncates to the sample 0
(Duration::as_millis keeps whole milliseconds), so it contributes nothing and
the new average is 0.95 * avg; and while the average is 0 the unguarded
overlay division 1.0 / (0.0 / 1000.0) yields IEEE positive infinity, which is
printed rather than failing. -/
theorem truncation_and_unguarded_division (w h : Nat) (cur prev : List Nat)
    (avg : ℚ) (dur : Duration) (hs : dur.secs = 0) (hn : dur.nanos < 1000000) :
    dur.asMillis = 0 ∧
    (presentFrame w h cur prev avg dur).2 = avg * 0.95 ∧
    (avg = 0 →
      (presentFrame w h cur prev avg dur).2 = 0 ∧
      (presentFrame w h cur prev avg dur).1.getLast? =
        some (Update.mk 0 0 255 0 0 (CellContent.number F32.posInf))) := by
  have hm : dur.asMillis = 0 := by
    unfold Duration.asMillis
    rw [hs, Nat.div_eq_of_lt hn]
  have havg : (presentFrame w h cur prev avg dur).2 = avg * 0.95 := by
    show frameAvgStep avg (dur.asMillis : ℚ) = avg * 0.95
    rw [hm]
    unfold frameAvgStep
    push_cast
    ring
  refine ⟨hm, havg, fun h0 => ?_⟩
  subst h0
  have h2 : (presentFrame w h cur prev 0 dur).2 = 0 := by
    rw [havg, zero_mul]
  refine ⟨h2, ?_⟩
  have hstep : frameAvgStep 0 ((dur.asMillis : ℚ)) = 0 := h2
  show ((diffCells w h cur prev).map (diffUpdate w cur) ++
    [Update.mk 0 0 255 0 0 (CellContent.number
      (displayFps (F32.finite (frameAvgStep 0 ((dur.asMillis : ℚ))))))]).getLast?
    = some (Update.mk 0 0 255 0 0 (CellContent.number F32.posInf))
  rw [getLast?_append_singleton, hstep]
  have hd : displayFps (F32.finite 0) = F32.posInf := by
    norm_num [displayFps, F32.div]
  rw [hd]

/-- C10 witness: a 999999-nanosecond frame truncates to 0 milliseconds and the
first overlay prints positive infinity. -/
theorem truncation_and_unguarded_division_witness :
    (presentFrame 1 1 curW curW 0 (Duration.mk 0 999999)).1.getLast? =
      some (Update.mk 0 0 255 0 0 (CellContent.number F32.posInf)) :=
  ((truncation_and_unguarded_division 1 1 curW curW 0 (Duration.mk 0 999999)
    rfl (by decide)).2.2 rfl).2

/-- Matrix4::from_scale(1) is the identity matrix. -/
theorem matrix4FromScale_one : matrix4FromScale 1 = (1 : M4) := by
  unfold matrix4FromScale
  ext i j
  fin_cases i <;> fin_cases j <;>
    simp [Matrix.one_apply, Matrix.vecHead, Matrix.vecTail]

/-- C6: for every elapsed time the uniform transform is exactly: world = the
rotation about the vertical (y) axis by the elapsed seconds — in particular it
fixes the vertical axis — view = the fixed look_at matrix (the from_scale(1)
factor is the identity), and proj = the fixed perspective with vertical field
of view (pi/2)/1.5, aspect ratio (width/2)/height, near plane 0.01 and far
plane 100; neither view nor proj depends on the elapsed time. -/
theorem uniform_transform (ops : TrigOps) (elapsed : Duration)
    (width height : Nat) :
    renderUniform ops elapsed width height =
      (specYRotation ops elapsed.toSecs,
       lookAtMatrix ops (-0.5, 1, -2) (0, 0, 0) (0, -1, 0),
       perspectiveMatrix ops (ops.piq / 2 / 1.5)
         (((width : ℚ) / 2) / (height : ℚ)) 0.01 100) ∧
    Matrix.mulVec (renderUniform ops elapsed width height).1 ![0, 1, 0, 0]
      = ![0, 1, 0, 0] := by
  constructor
  · show (matrix4FromAngleY ops elapsed.toSecs,
      lookAtMatrix ops (-0.5, 1, -2) (0, 0, 0) (0, -1, 0) * matrix4FromScale 1,
      perspectiveMatrix ops (ops.piq / 2 / 1.5)
        (((width : ℚ) / 2) / (height : ℚ)) 0.01 100) = _
    rw [matrix4FromScale_one, mul_one]
    rfl
  · show Matrix.mulVec (matrix4FromAngleY ops elapsed.toSecs) ![0, 1, 0, 0]
      = ![0, 1, 0, 0]
    unfold matrix4FromAngleY
    funext i
    fin_cases i <;>
      simp [Matrix.mulVec, Matrix.dotProduct, Fin.sum_univ_four]

/-- C8: render is deterministic — identically re-seeded pipelines (equal
state) and equal elapsed times give bit-identical results, both the returned
pixel buffer and the new state: the computation depends only on these inputs,
with no hidden time-of-day or random dependency. -/
theorem render_deterministic (ops : TrigOps) (raster : RasterFn)
    (p q : PipelineState) (t s : Duration) (hpq : p = q) (hts : t = s) :
    Pipeline.render ops raster p t = Pipeline.render ops raster q s := by
  rw [hpq, hts]

/-- A concrete instance of the trig primitives, for witnesses. -/
def ops0 : TrigOps := ⟨fun _ => 0, fun _ => 1, fun _ => 1, 3⟩

/-- A concrete rasterizer for witnesses: all pixels transparent black. -/
def raster0 : RasterFn := fun _ _ _ _ w h _ => List.replicate (w * h * 4) 0

/-- A concrete pipeline state for witnesses, as Pipeline::new builds it for a
1 by 1 target and a one-triangle one-vertex mesh. -/
def p0 : PipelineState :=
  { width := 1
    height := 1
    clearValues := [ClearValue.color 0 0 0 0, ClearValue.depth 1, ClearValue.none]
    imageContent := List.replicate 4 0
    pipelineObj := 0
    framebufferObj := 0
    vertexBuffer := [0, 0, 0]
    normalBuffer := [0, 0, 0]
    indexBuffer := [0, 0, 0]
    outputBuffer := List.replicate 4 0
    uniformCursor := 0 }

/-- C8 witness: the same pipeline state and elapsed time rendered twice give
the same result. -/
theorem render_deterministic_witness :
    Pipeline.render ops0 raster0 p0 (Duration.mk 1 500) =
      Pipeline.render ops0 raster0 p0 (Duration.mk 1 500) :=
  render_deterministic ops0 raster0 p0 p0 (Duration.mk 1 500)
    (Duration.mk 1 500) rfl rfl

/-- C9: one render call leaves the width, height, clear values, the three
geometry buffers, the pipeline object and the framebuffer unchanged, advances
the uniform pool write cursor by exactly one, and the returned pixel buffer
(the data written into the resolve image and the output buffer) is a function
of the elapsed time and those unchanged fields alone. -/
theorem render_state_effects (ops : TrigOps) (raster : RasterFn)
    (p : PipelineState) (elapsed : Duration) :
    ((Pipeline.render ops raster p elapsed).1.width = p.width ∧
     (Pipeline.render ops raster p elapsed).1.height = p.height ∧
     (Pipeline.render ops raster p elapsed).1.clearValues = p.clearValues ∧
     (Pipeline.render ops raster p elapsed).1.vertexBuffer = p.vertexBuffer ∧
     (Pipeline.render ops raster p elapsed).1.normalBuffer = p.normalBuffer ∧
     (Pipeline.render ops raster p elapsed).1.indexBuffer = p.indexBuffer ∧
     (Pipeline.render ops raster p elapsed).1.pipelineObj = p.pipelineObj ∧
     (Pipeline.render ops raster p elapsed).1.framebufferObj = p.framebufferObj) ∧
    (Pipeline.render ops raster p elapsed).1.uniformCursor
      = p.uniformCursor + 1 ∧
    (Pipeline.render ops raster p elapsed).2 =
      raster (renderUniform ops elapsed p.width p.height) p.vertexBuffer
        p.normalBuffer p.indexBuffer p.width p.height p.clearValues :=
  ⟨⟨rfl, rfl, rfl, rfl, rfl, rfl, rfl, rfl⟩, rfl, rfl⟩

end Vulkanus
